import Mathlib

/-!
Shallow embedding of the core of the `rusttracer` ray tracer
(intersection ledger, refractive-index bookkeeping, recursive shading,
transform caching) over exact rationals.

Floating-point `f32` arithmetic is modelled by `ℚ`; the two intrinsically
transcendental operations of the source (`sqrt`, `powf`) are passed in as an
explicit oracle `FOps`, so every statement below holds for every choice of
those operations.  All definitions follow the Rust source file by file;
definitions whose body is absent from the sources (only trait declarations or
callers exist) carry a doc comment starting `Modelled from the spec:`.
-/

namespace RustTracer

/-- `EPSILON` from `src/tuples.rs` line 7: `pub const EPSILON: f32 = 0.001;`. -/
def EPSILON : ℚ := 1 / 1000

/-- Transcendental-operation oracle: the source uses `f32::sqrt` and
`f32::powf`; the embedding is parametric in both. -/
structure FOps where
  sqrt : ℚ → ℚ
  powf : ℚ → ℚ → ℚ

/-- `Point` from `src/tuples.rs` (module `mytuples`): a 3-component tuple with
homogeneous coordinate `w = 1`. -/
structure Point where
  x : ℚ
  y : ℚ
  z : ℚ
deriving DecidableEq

/-- `Vector` from `src/tuples.rs` (module `mytuples`): a 3-component tuple with
homogeneous coordinate `w = 0`. -/
structure Vector where
  x : ℚ
  y : ℚ
  z : ℚ
deriving DecidableEq

/-- `Color` from `src/tuples.rs` (module `mytuples`). -/
structure Color where
  r : ℚ
  g : ℚ
  b : ℚ
deriving DecidableEq

/-- `Tuple::w` for points is the constant `1.0` (`src/tuples.rs`). -/
def Point.w (_ : Point) : ℚ := 1

/-- `Tuple::w` for vectors is the constant `0.0` (`src/tuples.rs`). -/
def Vector.w (_ : Vector) : ℚ := 0

instance : Add Vector := ⟨fun a b => ⟨a.x + b.x, a.y + b.y, a.z + b.z⟩⟩
instance : Sub Vector := ⟨fun a b => ⟨a.x - b.x, a.y - b.y, a.z - b.z⟩⟩
instance : Neg Vector := ⟨fun a => ⟨-a.x, -a.y, -a.z⟩⟩
instance : HMul Vector ℚ Vector := ⟨fun a s => ⟨a.x * s, a.y * s, a.z * s⟩⟩
instance : HAdd Point Vector Point := ⟨fun p v => ⟨p.x + v.x, p.y + v.y, p.z + v.z⟩⟩
instance : HSub Point Vector Point := ⟨fun p v => ⟨p.x - v.x, p.y - v.y, p.z - v.z⟩⟩
instance : HSub Point Point Vector := ⟨fun a b => ⟨a.x - b.x, a.y - b.y, a.z - b.z⟩⟩
instance : Add Color := ⟨fun a b => ⟨a.r + b.r, a.g + b.g, a.b + b.b⟩⟩
instance : Mul Color := ⟨fun a b => ⟨a.r * b.r, a.g * b.g, a.b * b.b⟩⟩
instance : HMul Color ℚ Color := ⟨fun c s => ⟨c.r * s, c.g * s, c.b * s⟩⟩

/-- `Color {r:0.0, g:0.0, b:0.0}`, the black used throughout `src/worlds.rs`. -/
def black : Color := ⟨0, 0, 0⟩

/-- `Vector::dot` from `src/tuples.rs`. -/
def Vector.dot (a b : Vector) : ℚ := a.x * b.x + a.y * b.y + a.z * b.z

/-- `Vector::magnitude` from `src/tuples.rs`: `sqrt(x² + y² + z²)`. -/
def Vector.magnitude (ops : FOps) (v : Vector) : ℚ :=
  ops.sqrt (v.x ^ 2 + v.y ^ 2 + v.z ^ 2)

/-- `Vector::normalize` from `src/tuples.rs`: each component divided by the
magnitude. -/
def Vector.normalize (ops : FOps) (v : Vector) : Vector :=
  ⟨v.x / v.magnitude ops, v.y / v.magnitude ops, v.z / v.magnitude ops⟩

/-- `Vector::reflect` from `src/tuples.rs`:
`self − normal * (2 * self·normal)`. -/
def Vector.reflect (v normal : Vector) : Vector :=
  v - normal * (2 * v.dot normal)

/-- `PartialEq for Point` from `src/tuples.rs` lines 281-288: every component
(including the homogeneous `w`) differs by at most `EPSILON`. -/
def pointEq (a b : Point) : Bool :=
  decide (|a.x - b.x| ≤ EPSILON) && decide (|a.y - b.y| ≤ EPSILON) &&
    decide (|a.z - b.z| ≤ EPSILON) && decide (|a.w - b.w| ≤ EPSILON)

/-- `PartialEq for Vector` from `src/tuples.rs` lines 289-296. -/
def vectorEq (a b : Vector) : Bool :=
  decide (|a.x - b.x| ≤ EPSILON) && decide (|a.y - b.y| ≤ EPSILON) &&
    decide (|a.z - b.z| ≤ EPSILON) && decide (|a.w - b.w| ≤ EPSILON)

/-- `PartialEq for Color` from `src/tuples.rs` lines 298-304. -/
def colorEq (a b : Color) : Bool :=
  decide (|a.r - b.r| ≤ EPSILON) && decide (|a.g - b.g| ≤ EPSILON) &&
    decide (|a.b - b.b| ≤ EPSILON)

/-- `Intersection` from `src/intersections.rs`: a ray parameter `t` together
with the index of the hit object in the world's object list. -/
structure Intersection where
  t : ℚ
  object_id : ℕ
deriving DecidableEq

/-- The sort underlying `Intersections::new` and `Intersections::extend`
(`src/intersections.rs`): stable sort ascending by `t` (the `Ord` instance
compares only `t`). -/
def sortByT (xs : List Intersection) : List Intersection :=
  xs.mergeSort (fun a b => decide (a.t ≤ b.t))

/-- `Intersections::new` from `src/intersections.rs`: store the list sorted. -/
def Intersections.new (xs : List Intersection) : List Intersection := sortByT xs

/-- The loop body of `Intersections::hit` (`src/intersections.rs`
lines 144-155): consider an intersection only when `t > 0.0`, replacing the
current candidate only when its `t` is strictly larger. -/
def hitStep (result : Option Intersection) (intersection : Intersection) :
    Option Intersection :=
  if intersection.t > 0 then
    match result with
    | none => some intersection
    | some intermediate_result =>
        if intermediate_result.t > intersection.t then some intersection
        else some intermediate_result
  else result

/-- `Intersections::hit` from `src/intersections.rs` lines 142-157: scan the
list keeping the intersection of smallest `t` among those with `t > 0.0`. -/
def hit (xs : List Intersection) : Option Intersection :=
  xs.foldl hitStep none

/-- `Matrix<4, 4>` from `src/matrices.rs`, indexed `data[row][col]`. -/
def Mat4 : Type := Fin 4 → Fin 4 → ℚ

/-- `Matrix::identity` from `src/matrices.rs`. -/
def Mat4.identity : Mat4 := fun r c => if r = c then 1 else 0

/-- `transpose` from `src/matrices.rs`. -/
def Mat4.transpose (a : Mat4) : Mat4 := fun r c => a c r

/-- `submatrix` from `src/matrices.rs`: drop the given row and column
(`Fin.succAbove` skips exactly that index). -/
def submatrix3 (a : Mat4) (row col : Fin 4) : Fin 3 → Fin 3 → ℚ :=
  fun i j => a (row.succAbove i) (col.succAbove j)

/-- `submatrix` of a 3×3 matrix. -/
def submatrix2 (a : Fin 3 → Fin 3 → ℚ) (row col : Fin 3) : Fin 2 → Fin 2 → ℚ :=
  fun i j => a (row.succAbove i) (col.succAbove j)

/-- `Determinant for Matrix<2, 2>` from `src/matrices.rs`. -/
def det2 (a : Fin 2 → Fin 2 → ℚ) : ℚ := a 0 0 * a 1 1 - a 0 1 * a 1 0

/-- `cofactor` of a 3×3 matrix (`src/matrices.rs`): the minor, negated when
`row + col` is odd. -/
def cofactor3 (a : Fin 3 → Fin 3 → ℚ) (row col : Fin 3) : ℚ :=
  if (row.val + col.val) % 2 = 0 then det2 (submatrix2 a row col)
  else -det2 (submatrix2 a row col)

/-- `Determinant for Matrix<3, 3>` from `src/matrices.rs`: cofactor expansion
along row 0. -/
def det3 (a : Fin 3 → Fin 3 → ℚ) : ℚ :=
  cofactor3 a 0 0 * a 0 0 + cofactor3 a 0 1 * a 0 1 + cofactor3 a 0 2 * a 0 2

/-- `cofactor` of a 4×4 matrix (`src/matrices.rs`). -/
def cofactor4 (a : Mat4) (row col : Fin 4) : ℚ :=
  if (row.val + col.val) % 2 = 0 then det3 (submatrix3 a row col)
  else -det3 (submatrix3 a row col)

/-- `Determinant for Matrix<4, 4>` from `src/matrices.rs`: cofactor expansion
along row 0. -/
def det4 (a : Mat4) : ℚ :=
  cofactor4 a 0 0 * a 0 0 + cofactor4 a 0 1 * a 0 1 + cofactor4 a 0 2 * a 0 2 +
    cofactor4 a 0 3 * a 0 3

/-- `inverse` from `src/matrices.rs` lines 148-166: `None` when the
determinant is zero, otherwise `m2[col][row] = cofactor(row, col) / det`. -/
def inverse (m : Mat4) : Option Mat4 :=
  if det4 m = 0 then none
  else some (fun row col => cofactor4 m col row / det4 m)

/-- Modelled from the spec: `transform_point` — `Matrix * Tuple` from
`src/matrices.rs` applied to a point's homogeneous tuple (`w = 1`); the
result's `w` row is discarded because `Point` stores no `w`.  (The sources
define `Mul<Tuple> for Matrix` but the `Mul<Point>` instance used by the
callers is absent.) -/
def Mat4.mulPoint (m : Mat4) (p : Point) : Point :=
  ⟨m 0 0 * p.x + m 0 1 * p.y + m 0 2 * p.z + m 0 3 * 1,
   m 1 0 * p.x + m 1 1 * p.y + m 1 2 * p.z + m 1 3 * 1,
   m 2 0 * p.x + m 2 1 * p.y + m 2 2 * p.z + m 2 3 * 1⟩

/-- Modelled from the spec: `transform_vector` — as `Mat4.mulPoint` but with
homogeneous coordinate `w = 0`, so translation is ignored. -/
def Mat4.mulVector (m : Mat4) (v : Vector) : Vector :=
  ⟨m 0 0 * v.x + m 0 1 * v.y + m 0 2 * v.z,
   m 1 0 * v.x + m 1 1 * v.y + m 1 2 * v.z,
   m 2 0 * v.x + m 2 1 * v.y + m 2 2 * v.z⟩

/-- `Ray` from `src/rays.rs`. -/
structure Ray where
  origin : Point
  direction : Vector

/-- `Ray::position` from `src/rays.rs`: `origin + direction * t`. -/
def Ray.position (r : Ray) (t : ℚ) : Point := r.origin + r.direction * t

/-- `Ray::transform` from `src/rays.rs`: transform origin and direction. -/
def Ray.transform (r : Ray) (t : Mat4) : Ray :=
  ⟨t.mulPoint r.origin, t.mulVector r.direction⟩

/-- `TransformData` from `src/shapes.rs`: a matrix plus its optionally-absent
cached inverse.  `Plane` and `Camera` carry the same two fields. -/
structure TransformData where
  transform : Mat4
  inverse_transform : Option Mat4

/-- `TransformData::default` from `src/shapes.rs`: identity matrix, no cached
inverse. -/
def TransformData.default : TransformData := ⟨Mat4.identity, none⟩

/-- `HasTransform::set_transform for TransformData` from `src/shapes.rs`
lines 131-142: store the matrix and recompute the cached inverse.  `Plane`
(`src/planes.rs`), `Sphere` (`src/spheres.rs`) and `Camera` (`src/camera.rs`)
repeat this body verbatim. -/
def set_transform (_d : TransformData) (transform : Mat4) : TransformData :=
  ⟨transform, inverse transform⟩

/-- Modelled from the spec: the procedural pattern colour lookup
(`Pattern::pattern_at_shape` in `src/patterns.rs`) is an external collaborator
— a pure function of the owning object's transform data and the world point.
Its internals are out of scope. -/
def Pattern : Type := TransformData → Point → Color

/-- `Material` from `src/materials.rs`. -/
structure Material where
  color : Color
  ambient : ℚ
  diffuse : ℚ
  specular : ℚ
  shininess : ℚ
  pattern : Option Pattern
  reflective : ℚ
  transparency : ℚ
  refractive_index : ℚ

/-- `Material::default` from `src/materials.rs`. -/
def Material.default : Material :=
  ⟨⟨1, 1, 1⟩, 1/10, 9/10, 9/10, 200, none, 0, 0, 1⟩

/-- The shape variants of the closed `Shape` enum from `src/shapes.rs`.  The
debug-only `Test` stub (whose `local_intersect` mutates a mutex-guarded cell)
is excluded from the core contract per the spec. -/
inductive ShapeKind where
  | sphere
  | plane

/-- `Shape` from `src/shapes.rs`: a variant, its transform data and its
material (each Rust variant owns the same fields). -/
structure Shape where
  kind : ShapeKind
  transformData : TransformData
  material : Material

/-- `Shape::sphere` from `src/shapes.rs`: a unit sphere with default
transform data and material. -/
def Shape.sphere : Shape := ⟨.sphere, TransformData.default, Material.default⟩

/-- `Shape::plane` from `src/shapes.rs` / `Plane::default` from
`src/planes.rs`. -/
def Shape.plane : Shape := ⟨.plane, TransformData.default, Material.default⟩

/-- `HasTransform::get_inverse_transform for Shape` from `src/shapes.rs`. -/
def Shape.get_inverse_transform (s : Shape) : Option Mat4 :=
  s.transformData.inverse_transform

/-- `Plane::local_intersect` from `src/planes.rs` lines 44-52: empty when
`|direction.y| < EPSILON`, else a single intersection at
`t = -origin.y / direction.y` (wrapped in `Intersections::new`). -/
def Plane.local_intersect (ray : Ray) (object_id : ℕ) : List Intersection :=
  if |ray.direction.y| < EPSILON then Intersections.new []
  else Intersections.new [⟨-ray.origin.y / ray.direction.y, object_id⟩]

/-- Sphere local intersection: the quadratic of `Sphere::intersect` in
`src/spheres.rs` lines 44-68 (the object-space part; `src/shapes.rs`
dispatches to a `local_intersect` whose explicit `impl` is absent), which
matches the spec's unit-sphere quadratic.  A negative discriminant yields no
intersections, otherwise the two roots `(-b ∓ √disc) / 2a`. -/
def Sphere.local_intersect (ops : FOps) (ray : Ray) (object_id : ℕ) :
    List Intersection :=
  let sphere_to_ray : Vector := ray.origin - (⟨0, 0, 0⟩ : Point)
  let a := ray.direction.dot ray.direction
  let b := 2 * ray.direction.dot sphere_to_ray
  let c := sphere_to_ray.dot sphere_to_ray - 1
  let discriminant := b ^ 2 - 4 * a * c
  if discriminant < 0 then Intersections.new []
  else
    let t1 := (-b - ops.sqrt discriminant) / (2 * a)
    let t2 := (-b + ops.sqrt discriminant) / (2 * a)
    Intersections.new [⟨t1, object_id⟩, ⟨t2, object_id⟩]

/-- `Intersects::local_normal_at` for the sphere: `src/spheres.rs`
`normal_at` computes `object_point - Point::default()` in object space. -/
def Sphere.local_normal_at (p : Point) : Vector := p - (⟨0, 0, 0⟩ : Point)

/-- `Plane::local_normal_at` from `src/planes.rs`: constant `(0, 1, 0)`. -/
def Plane.local_normal_at (_p : Point) : Vector := ⟨0, 1, 0⟩

/-- `Shape::intersect` from `src/shapes.rs` lines 74-84: transform the ray by
the cached inverse when present (leave it unchanged when absent), then
dispatch on the variant. -/
def Shape.intersect (ops : FOps) (s : Shape) (ray : Ray) (object_id : ℕ) :
    List Intersection :=
  let local_ray :=
    match s.get_inverse_transform with
    | none => ray
    | some inverse_transform => ray.transform inverse_transform
  match s.kind with
  | .sphere => Sphere.local_intersect ops local_ray object_id
  | .plane => Plane.local_intersect local_ray object_id

/-- `Shape::normal_at` from `src/shapes.rs` lines 85-98: substitute the
identity matrix when the cached inverse is absent; local point via the
inverse, local normal via the variant, world normal via the transposed
inverse, normalized. -/
def Shape.normal_at (ops : FOps) (s : Shape) (p : Point) : Vector :=
  let inverse_transform :=
    match s.get_inverse_transform with
    | none => Mat4.identity
    | some inverse_transform => inverse_transform
  let local_point := inverse_transform.mulPoint p
  let local_normal :=
    match s.kind with
    | .sphere => Sphere.local_normal_at local_point
    | .plane => Plane.local_normal_at local_point
  let world_normal := inverse_transform.transpose.mulVector local_normal
  world_normal.normalize ops

/-- `PointLight` from `src/lights.rs` (the only `Light` variant). -/
structure Light where
  position : Point
  intensity : Color

/-- `World` from `src/worlds.rs`: an object list and an optional light. -/
structure World where
  objects : List Shape
  light : Option Light

/-- `world.objects[i]`: Rust indexing (which panics out of bounds); modelled
totally with `Shape.sphere` as the out-of-bounds value. -/
def World.objectAt (w : World) (i : ℕ) : Shape := w.objects.getD i Shape.sphere

/-- `Computations` from `src/intersections.rs`. -/
structure Computations where
  t : ℚ
  object_id : ℕ
  point : Point
  eyev : Vector
  normalv : Vector
  inside : Bool
  over_point : Point
  reflectv : Vector
  n1 : ℚ
  n2 : ℚ
  under_point : Point

/-- The containment-stack update of `Intersection::prepare_computations`
(`src/intersections.rs` lines 67-71): remove the first occurrence of the
object index when present, else push it. -/
def toggleContainer (containers : List ℕ) (object_id : ℕ) : List ℕ :=
  if object_id ∈ containers then containers.erase object_id
  else containers ++ [object_id]

/-- One iteration of the `n1`/`n2` loop of
`Intersection::prepare_computations` (`src/intersections.rs` lines 58-80),
acting on the state `(n1, n2, containers)`. -/
def n1n2Step (w : World) (self : Intersection)
    (st : ℚ × ℚ × List ℕ) (i : Intersection) : ℚ × ℚ × List ℕ :=
  let n1 :=
    if i = self then
      match st.2.2.getLast? with
      | none => st.1
      | some object_id => (w.objectAt object_id).material.refractive_index
    else st.1
  let containers := toggleContainer st.2.2 i.object_id
  let n2 :=
    if i = self then
      match containers.getLast? with
      | none => st.2.1
      | some object_id => (w.objectAt object_id).material.refractive_index
    else st.2.1
  (n1, n2, containers)

/-- `Intersection::prepare_computations` from `src/intersections.rs`
lines 49-106. -/
def prepare_computations (ops : FOps) (self : Intersection) (ray : Ray)
    (world : World) (xs : List Intersection) : Computations :=
  let st := xs.foldl (n1n2Step world self) (1, 1, [])
  let point := ray.position self.t
  let object := world.objectAt self.object_id
  let normalv0 := object.normal_at ops point
  let eyev := -ray.direction
  let inside := decide (normalv0.dot eyev < 0)
  let normalv := if normalv0.dot eyev < 0 then -normalv0 else normalv0
  let over_point := point + normalv * EPSILON
  let under_point := point - normalv * EPSILON
  let reflectv := ray.direction.reflect normalv
  ⟨self.t, self.object_id, point, eyev, normalv, inside, over_point,
    reflectv, st.1, st.2.1, under_point⟩

/-- `Computations::schlick` from `src/intersections.rs` lines 29-46. -/
def schlick (ops : FOps) (comps : Computations) : ℚ :=
  let cos := comps.eyev.dot comps.normalv
  let r0 := ((comps.n1 - comps.n2) / (comps.n1 + comps.n2)) ^ 2
  if comps.n1 > comps.n2 then
    let n := comps.n1 / comps.n2
    let sin2_t := n ^ 2 * (1 - cos ^ 2)
    if sin2_t > 1 then 1
    else
      let cos_t := ops.sqrt (1 - sin2_t)
      r0 + (1 - r0) * (1 - cos_t) ^ 5
  else r0 + (1 - r0) * (1 - cos) ^ 5

/-- `lightning` from `src/materials.rs` lines 106-148 (the Phong local
lighting model; the function name is the source's spelling). -/
def lightning (ops : FOps) (object : Shape) (light : Light) (point : Point)
    (eyev normalv : Vector) (in_shadow : Bool) : Color :=
  let material := object.material
  let color :=
    match material.pattern with
    | none => material.color
    | some pattern => pattern object.transformData point
  let effective_color := color * light.intensity
  let lightv := (light.position - point).normalize ops
  let ambient := effective_color * material.ambient
  if in_shadow then ambient
  else
    let light_dot_normal := lightv.dot normalv
    let diffuse :=
      if light_dot_normal ≥ 0 then effective_color * material.diffuse * light_dot_normal
      else black
    let specular :=
      if light_dot_normal ≥ 0 then
        let reflectv := (-lightv).reflect normalv
        let reflect_dot_eye := reflectv.dot eyev
        if reflect_dot_eye > 0 then
          let factor := ops.powf reflect_dot_eye material.shininess
          light.intensity * material.specular * factor
        else black
      else black
    ambient + diffuse + specular

/-- `World::intersect_world` from `src/worlds.rs` lines 28-37: intersect every
object (passing its index) and accumulate via `Intersections::extend`, which
appends and re-sorts. -/
def intersect_world (ops : FOps) (w : World) (ray : Ray) : List Intersection :=
  w.objects.enum.foldl
    (fun intersections p => sortByT (intersections ++ Shape.intersect ops p.2 ray p.1))
    []

/-- `World::is_shadowed` from `src/worlds.rs` lines 77-98. -/
def is_shadowed (ops : FOps) (w : World) (point : Point) : Bool :=
  match w.light with
  | none => true
  | some light =>
      let v : Vector := light.position - point
      let distance := v.magnitude ops
      let direction := v.normalize ops
      match hit (intersect_world ops w ⟨point, direction⟩) with
      | none => false
      | some intersection => decide (intersection.t < distance)

mutual

/-- `World::shade_hit` from `src/worlds.rs` lines 38-65. -/
def shade_hit (ops : FOps) (w : World) (comps : Computations)
    (remaining : ℕ) : Color :=
  let object := w.objectAt comps.object_id
  let shadowed := is_shadowed ops w comps.over_point
  let surface :=
    match w.light with
    | none => black
    | some light => lightning ops object light comps.point comps.eyev comps.normalv shadowed
  let reflected := reflected_color ops w comps remaining
  let refracted := refracted_color ops w comps remaining
  let material := object.material
  if material.reflective > 0 ∧ material.transparency > 0 then
    let reflectance := schlick ops comps
    surface + reflected * reflectance + refracted * (1 - reflectance)
  else surface + reflected + refracted
termination_by 3 * remaining + 1
decreasing_by all_goals omega

/-- `World::color_at` from `src/worlds.rs` lines 66-76. -/
def color_at (ops : FOps) (w : World) (ray : Ray) (remaining : ℕ) : Color :=
  let xs := intersect_world ops w ray
  match hit xs with
  | none => black
  | some intersection =>
      shade_hit ops w (prepare_computations ops intersection ray w xs) remaining
termination_by 3 * remaining + 2
decreasing_by all_goals omega

/-- `World::reflected_color` from `src/worlds.rs` lines 99-118
(`remaining <= 0` on a `usize` is `remaining == 0`). -/
def reflected_color (ops : FOps) (w : World) (comps : Computations)
    (remaining : ℕ) : Color :=
  match remaining with
  | 0 => black
  | r + 1 =>
      let material := (w.objectAt comps.object_id).material
      if material.reflective = 0 then black
      else color_at ops w ⟨comps.over_point, comps.reflectv⟩ r * material.reflective
termination_by 3 * remaining
decreasing_by all_goals omega

/-- `World::refracted_color` from `src/worlds.rs` lines 119-137. -/
def refracted_color (ops : FOps) (w : World) (comps : Computations)
    (remaining : ℕ) : Color :=
  let object := w.objectAt comps.object_id
  if object.material.transparency = 0 then black
  else
    match remaining with
    | 0 => black
    | r + 1 =>
        let ratio := comps.n1 / comps.n2
        let cos_i := comps.eyev.dot comps.normalv
        let sin2_t := ratio ^ 2 * (1 - cos_i ^ 2)
        if sin2_t > 1 then black
        else
          let cos_t := ops.sqrt (1 - sin2_t)
          let direction := comps.normalv * (ratio * cos_i - cos_t) - comps.eyev * ratio
          color_at ops w ⟨comps.under_point, direction⟩ r * object.material.transparency
termination_by 3 * remaining
decreasing_by all_goals omega

end

/-- The surface term of `World::shade_hit` (`src/worlds.rs` lines 40-55):
the local lighting result, black when the world has no light, with the shadow
test at `over_point`. -/
def surface_color (ops : FOps) (w : World) (comps : Computations) : Color :=
  match w.light with
  | none => black
  | some light =>
      lightning ops (w.objectAt comps.object_id) light comps.point comps.eyev
        comps.normalv (is_shadowed ops w comps.over_point)

/-- The containment stack accumulated by toggling every intersection of a
list in order, starting from the given stack. -/
def containersAfter (start : List ℕ) (xs : List Intersection) : List ℕ :=
  xs.foldl (fun containers i => toggleContainer containers i.object_id) start

/-- The refractive index the claim reads off a containment stack: that of the
object on top (the last pushed index), `1.0` when the stack is empty. -/
def topRefractive (w : World) (stack : List ℕ) : ℚ :=
  match stack.getLast? with
  | none => 1
  | some object_id => (w.objectAt object_id).material.refractive_index

/-- The claim's description of `n1`: the refractive index of the object on
top of the containment stack built from the intersections strictly before the
hit, before the hit's own toggle (`1.0` if that stack is empty). -/
def claim_n1 (w : World) (pre : List Intersection) : ℚ :=
  topRefractive w (containersAfter [] pre)

/-- The claim's description of `n2`: the refractive index of the object on
top of the containment stack after the hit's own toggle (`1.0` if that stack
is empty). -/
def claim_n2 (w : World) (theHit : Intersection) (pre : List Intersection) : ℚ :=
  topRefractive w (toggleContainer (containersAfter [] pre) theHit.object_id)

/-- A transcendental oracle instance for concrete evaluations (any choice is
admissible; the theorems are oracle-independent). -/
def opsZero : FOps := ⟨fun _ => 0, fun _ _ => 0⟩

/-- An oracle whose square root is the constant `10`, used to exercise the
shadow test on a concrete scene where the point-to-light distance is `10`. -/
def opsTen : FOps := ⟨fun _ => 10, fun _ _ => 0⟩

/-- A glass material with the given refractive index, as built by the
`finding_n1_and_n2_at_various_intersections` test (`src/intersections.rs`). -/
def glassMaterial (ri : ℚ) : Material :=
  { Material.default with transparency := 1, refractive_index := ri }

/-- Three overlapping glass spheres A, B, C in the shape of the
`finding_n1_and_n2_at_various_intersections` test scenario, with three
distinct (integer, for kernel evaluability) refractive indices. -/
def glassExampleWorld : World :=
  ⟨[⟨.sphere, TransformData.default, glassMaterial 15⟩,
    ⟨.sphere, TransformData.default, glassMaterial 20⟩,
    ⟨.sphere, TransformData.default, glassMaterial 25⟩], none⟩

/-- A one-plane scene with a light `10` units below the shadow-test point. -/
def shadowExampleWorld : World :=
  ⟨[Shape.plane], some ⟨⟨0, -9, 0⟩, ⟨1, 1, 1⟩⟩⟩

/-! ## Theorems -/

/-- Loop invariant of `Intersections::hit`: folding `hitStep` from any
accumulator yields `none` iff the accumulator was `none` and no listed `t` is
positive; a `some` result is the accumulator or a positive-`t` list element,
bounds the accumulator from below, and is minimal among positive-`t`
elements. -/
theorem hitStep_fold_spec (xs : List Intersection) :
    ∀ acc : Option Intersection,
      (xs.foldl hitStep acc = none ↔ acc = none ∧ ∀ j ∈ xs, j.t ≤ 0) ∧
      (∀ i a, xs.foldl hitStep acc = some i → acc = some a → i.t ≤ a.t) ∧
      (∀ i, xs.foldl hitStep acc = some i →
        (acc = some i ∨ (i ∈ xs ∧ 0 < i.t)) ∧ ∀ j ∈ xs, 0 < j.t → i.t ≤ j.t) := by
  induction xs with
  | nil =>
      intro acc
      refine ⟨by simp, ?_, ?_⟩
      · intro i a h ha
        simp only [List.foldl_nil] at h
        rw [h] at ha
        cases ha
        exact le_refl _
      · intro i h
        simp only [List.foldl_nil] at h
        exact ⟨Or.inl h, by simp⟩
  | cons x rest ih =>
      intro acc
      have hstep : (x :: rest).foldl hitStep acc = rest.foldl hitStep (hitStep acc x) := rfl
      by_cases hx : x.t > 0
      · -- the step keeps a candidate of minimal `t`; three concrete sub-cases
        cases acc with
        | none =>
          have hb : hitStep none x = some x := by simp [hitStep, hx]
          obtain ⟨ihA, ihC, ihB⟩ := ih (some x)
          rw [hb] at hstep
          refine ⟨?_, ?_, ?_⟩
          · rw [hstep, ihA]
            constructor
            · intro h'
              cases h'.1
            · rintro ⟨-, hall⟩
              exact absurd hx (not_lt.mpr (hall x (List.mem_cons_self x rest)))
          · intro i a h ha
            cases ha
          · intro i h
            rw [hstep] at h
            obtain ⟨hd, hmin⟩ := ihB i h
            have hix : i.t ≤ x.t := by
              rcases hd with hd | hd
              · cases hd
                exact le_refl _
              · exact ihC i x h rfl
            refine ⟨?_, ?_⟩
            · rcases hd with hd | hd
              · cases hd
                exact Or.inr ⟨List.mem_cons_self x rest, hx⟩
              · exact Or.inr ⟨List.mem_cons_of_mem x hd.1, hd.2⟩
            · intro j hj hjpos
              rcases List.mem_cons.mp hj with hj | hj
              · rw [hj]
                exact hix
              · exact hmin j hj hjpos
        | some a =>
          by_cases hax : a.t > x.t
          · have hb : hitStep (some a) x = some x := by simp [hitStep, hx, hax]
            obtain ⟨ihA, ihC, ihB⟩ := ih (some x)
            rw [hb] at hstep
            refine ⟨?_, ?_, ?_⟩
            · rw [hstep, ihA]
              constructor
              · intro h'
                cases h'.1
              · rintro ⟨h', -⟩
                cases h'
            · intro i a' h ha
              rw [hstep] at h
              cases ha
              exact le_trans (ihC i x h rfl) (le_of_lt hax)
            · intro i h
              rw [hstep] at h
              obtain ⟨hd, hmin⟩ := ihB i h
              have hix : i.t ≤ x.t := by
                rcases hd with hd | hd
                · cases hd
                  exact le_refl _
                · exact ihC i x h rfl
              refine ⟨?_, ?_⟩
              · rcases hd with hd | hd
                · cases hd
                  exact Or.inr ⟨List.mem_cons_self x rest, hx⟩
                · exact Or.inr ⟨List.mem_cons_of_mem x hd.1, hd.2⟩
              · intro j hj hjpos
                rcases List.mem_cons.mp hj with hj | hj
                · rw [hj]
                  exact hix
                · exact hmin j hj hjpos
          · have hb : hitStep (some a) x = some a := by simp [hitStep, hx, hax]
            obtain ⟨ihA, ihC, ihB⟩ := ih (some a)
            rw [hb] at hstep
            refine ⟨?_, ?_, ?_⟩
            · rw [hstep, ihA]
              constructor
              · intro h'
                cases h'.1
              · rintro ⟨h', -⟩
                cases h'
            · intro i a' h ha
              rw [hstep] at h
              cases ha
              exact ihC i a h rfl
            · intro i h
              rw [hstep] at h
              obtain ⟨hd, hmin⟩ := ihB i h
              have hia : i.t ≤ a.t := by
                rcases hd with hd | hd
                · cases hd
                  exact le_refl _
                · exact ihC i a h rfl
              refine ⟨?_, ?_⟩
              · rcases hd with hd | hd
                · exact Or.inl hd
                · exact Or.inr ⟨List.mem_cons_of_mem x hd.1, hd.2⟩
              · intro j hj hjpos
                rcases List.mem_cons.mp hj with hj | hj
                · rw [hj]
                  exact le_trans hia (le_of_not_lt hax)
                · exact hmin j hj hjpos
      · have hs : hitStep acc x = acc := by
          cases acc <;> simp [hitStep, hx]
        obtain ⟨ihA, ihC, ihB⟩ := ih (hitStep acc x)
        rw [hs] at ihA ihC ihB
        refine ⟨?_, ?_, ?_⟩
        · rw [hstep, hs, ihA]
          constructor
          · rintro ⟨h1, h2⟩
            refine ⟨h1, ?_⟩
            intro j hj
            rcases List.mem_cons.mp hj with hj | hj
            · rw [hj]; exact le_of_not_lt hx
            · exact h2 j hj
          · rintro ⟨h1, h2⟩
            exact ⟨h1, fun j hj => h2 j (List.mem_cons_of_mem x hj)⟩
        · intro i a h ha
          rw [hstep, hs] at h
          exact ihC i a h ha
        · intro i h
          rw [hstep, hs] at h
          obtain ⟨hd, hmin⟩ := ihB i h
          refine ⟨?_, ?_⟩
          · rcases hd with hd | hd
            · exact Or.inl hd
            · exact Or.inr ⟨List.mem_cons_of_mem x hd.1, hd.2⟩
          · intro j hj hjpos
            rcases List.mem_cons.mp hj with hj | hj
            · rw [hj] at hjpos; exact absurd hjpos hx
            · exact hmin j hj hjpos

/-- C1: for every collection of intersections, `hit` returns an intersection
with the smallest positive `t`, ignoring every intersection with `t ≤ 0`; on
an empty collection, or when every intersection has non-positive `t`, it
returns `None`.  Over `t` values `{5, 7, -3, 2}` it returns the intersection
with `t = 2`, and over all-negative `t`s it returns `None`. -/
theorem hit_smallest_nonnegative :
    (∀ xs : List Intersection,
      (hit xs = none ↔ ∀ j ∈ xs, j.t ≤ 0) ∧
      ∀ i, hit xs = some i → i ∈ xs ∧ 0 < i.t ∧ ∀ j ∈ xs, 0 < j.t → i.t ≤ j.t) ∧
    hit (Intersections.new [⟨5, 0⟩, ⟨7, 1⟩, ⟨-3, 2⟩, ⟨2, 3⟩]) = some ⟨2, 3⟩ ∧
    hit (Intersections.new [⟨-2, 0⟩, ⟨-1, 1⟩]) = none := by
  refine ⟨?_, ?_, ?_⟩
  · intro xs
    obtain ⟨hA, hC, hB⟩ := hitStep_fold_spec xs none
    refine ⟨by simpa [hit] using hA, ?_⟩
    intro i h
    obtain ⟨hd, hmin⟩ := hB i h
    rcases hd with hd | hd
    · cases hd
    · exact ⟨hd.1, hd.2, hmin⟩
  · norm_num [hit, Intersections.new, sortByT, List.mergeSort, List.merge, hitStep]
  · norm_num [hit, Intersections.new, sortByT, List.mergeSort, List.merge, hitStep]

/-- Witness for C1 at the `{5, 7, -3, 2}` collection. -/
theorem hit_smallest_nonnegative_witness :
    hit [⟨5, 0⟩, ⟨7, 1⟩, ⟨-3, 2⟩, ⟨2, 3⟩] = some ⟨2, 3⟩ ∧
    (⟨2, 3⟩ : Intersection) ∈ ([⟨5, 0⟩, ⟨7, 1⟩, ⟨-3, 2⟩, ⟨2, 3⟩] : List Intersection) ∧
    0 < (2 : ℚ) := by
  have h : hit [⟨5, 0⟩, ⟨7, 1⟩, ⟨-3, 2⟩, ⟨2, 3⟩] = some ⟨2, 3⟩ := by decide
  obtain ⟨hm, hp, -⟩ :=
    (hit_smallest_nonnegative.1 [⟨5, 0⟩, ⟨7, 1⟩, ⟨-3, 2⟩, ⟨2, 3⟩]).2 ⟨2, 3⟩ h
  exact ⟨h, hm, hp⟩

/-- C4: with `remaining = 0` both `reflected_color` and `refracted_color`
return black, for every world and computations — the termination bound of the
shading/reflection/refraction recursion. -/
theorem recursion_terminal_black (ops : FOps) (w : World) (comps : Computations) :
    reflected_color ops w comps 0 = black ∧ refracted_color ops w comps 0 = black := by
  constructor
  · rw [reflected_color]
  · rw [refracted_color]
    split <;> rfl

/-- C6: in plane object space, a ray whose direction has `|y| < EPSILON`
produces no intersections (covering parallel and coplanar rays alike);
otherwise exactly one intersection at `t = -origin.y / direction.y`. -/
theorem plane_local_intersect_spec (ray : Ray) (object_id : ℕ) :
    (|ray.direction.y| < EPSILON → Plane.local_intersect ray object_id = []) ∧
    (¬|ray.direction.y| < EPSILON →
      Plane.local_intersect ray object_id =
        [⟨-ray.origin.y / ray.direction.y, object_id⟩]) := by
  constructor <;> intro h <;>
    simp [Plane.local_intersect, h, Intersections.new, sortByT]

/-- Witness for C6: a parallel ray above the plane, and a ray cast straight
down from `y = 1`. -/
theorem plane_local_intersect_spec_witness :
    (|Vector.y ⟨0, 0, 1⟩| < EPSILON ∧
      Plane.local_intersect ⟨⟨0, 10, 0⟩, ⟨0, 0, 1⟩⟩ 0 = []) ∧
    (¬|Vector.y ⟨0, -1, 0⟩| < EPSILON ∧
      Plane.local_intersect ⟨⟨0, 1, 0⟩, ⟨0, -1, 0⟩⟩ 0 = [⟨1, 0⟩]) := by
  have h1 : |Vector.y ⟨0, 0, 1⟩| < EPSILON := by norm_num [EPSILON]
  have h2 : ¬|Vector.y ⟨0, -1, 0⟩| < EPSILON := by norm_num [EPSILON]
  refine ⟨⟨h1, (plane_local_intersect_spec ⟨⟨0, 10, 0⟩, ⟨0, 0, 1⟩⟩ 0).1 h1⟩, ⟨h2, ?_⟩⟩
  have h := (plane_local_intersect_spec ⟨⟨0, 1, 0⟩, ⟨0, -1, 0⟩⟩ 0).2 h2
  rw [h]
  norm_num

/-- C8 counterexample: two points whose components all differ by at most
`0.01` (in fact by `0.005`) nonetheless compare unequal, because the
source's epsilon is `0.001`, not approximately `0.01`. -/
theorem approx_eq_epsilon_counterexample :
    (|(1 / 200 : ℚ) - 0| ≤ 1 / 100 ∧ |(0 : ℚ) - 0| ≤ 1 / 100 ∧
      |(0 : ℚ) - 0| ≤ 1 / 100) ∧
    pointEq ⟨1 / 200, 0, 0⟩ ⟨0, 0, 0⟩ = false := by
  have habs : |(1 / 200 : ℚ)| = 1 / 200 := abs_of_pos (by norm_num)
  constructor
  · norm_num [habs]
  · norm_num [pointEq, EPSILON, Point.w, habs]

/-- C8 (amended): equality on `Point`, `Vector` and `Color` is approximate
with the single shared epsilon `EPSILON = 0.001`: two values compare equal
exactly when every component differs by at most `EPSILON`. -/
theorem approx_eq_epsilon_spec :
    EPSILON = 1 / 1000 ∧
    (∀ a b : Point, pointEq a b = true ↔
      |a.x - b.x| ≤ EPSILON ∧ |a.y - b.y| ≤ EPSILON ∧ |a.z - b.z| ≤ EPSILON) ∧
    (∀ a b : Vector, vectorEq a b = true ↔
      |a.x - b.x| ≤ EPSILON ∧ |a.y - b.y| ≤ EPSILON ∧ |a.z - b.z| ≤ EPSILON) ∧
    (∀ a b : Color, colorEq a b = true ↔
      |a.r - b.r| ≤ EPSILON ∧ |a.g - b.g| ≤ EPSILON ∧ |a.b - b.b| ≤ EPSILON) := by
  refine ⟨rfl, ?_, ?_, ?_⟩ <;> intro a b <;>
    simp [pointEq, vectorEq, colorEq, Point.w, Vector.w, EPSILON, and_assoc]

/-- C10: after any (non-empty) sequence of `set_transform` calls the cached
inverse is exactly `inverse` of the stored matrix, it is absent exactly when
that matrix is singular (zero determinant), and repeating `set_transform`
with the same matrix changes nothing. -/
theorem set_transform_inverse_invariant (d : TransformData) (ms : List Mat4) (m : Mat4) :
    ((ms ++ [m]).foldl set_transform d).inverse_transform =
      inverse ((ms ++ [m]).foldl set_transform d).transform ∧
    (((ms ++ [m]).foldl set_transform d).inverse_transform = none ↔
      det4 ((ms ++ [m]).foldl set_transform d).transform = 0) ∧
    set_transform (set_transform d m) m = set_transform d m := by
  have h : (ms ++ [m]).foldl set_transform d = set_transform (ms.foldl set_transform d) m := by
    rw [List.foldl_append]
    rfl
  rw [h]
  refine ⟨rfl, ?_, rfl⟩
  show inverse m = none ↔ det4 m = 0
  unfold inverse
  split
  · simp_all
  · simp_all

/-- Folding the `n1`/`n2` loop over intersections none of which equals the
hit leaves `n1` and `n2` unchanged and only toggles the containment stack. -/
theorem n1n2_fold_skip (w : World) (self : Intersection) :
    ∀ xs : List Intersection, (∀ i ∈ xs, i ≠ self) →
      ∀ st : ℚ × ℚ × List ℕ,
        xs.foldl (n1n2Step w self) st = (st.1, st.2.1, containersAfter st.2.2 xs) := by
  intro xs
  induction xs with
  | nil => intro _ st; simp [containersAfter]
  | cons x rest ih =>
      intro h st
      have hx : ¬x = self := h x (List.mem_cons_self x rest)
      have hstep : n1n2Step w self st x = (st.1, st.2.1, toggleContainer st.2.2 x.object_id) := by
        simp [n1n2Step, hx]
      simp only [List.foldl_cons, hstep]
      rw [ih (fun i hi => h i (List.mem_cons_of_mem x hi)) _]
      simp [containersAfter]

/-- The `n1`/`n2` step at the hit itself, starting from the untouched state:
`n1` reads the top of the stack before the toggle, `n2` after it. -/
theorem n1n2_step_at_hit (w : World) (theHit : Intersection) (stack : List ℕ) :
    n1n2Step w theHit (1, 1, stack) theHit =
      (topRefractive w stack,
       topRefractive w (toggleContainer stack theHit.object_id),
       toggleContainer stack theHit.object_id) := by
  simp [n1n2Step, topRefractive]

/-- C2: over a sorted list decomposed as `pre ++ hit :: post` with the hit
occurring only at that position, `prepare_computations` derives `n1` as the
refractive index of the top of the containment stack built from `pre`
(1.0 when empty) and `n2` as the top after additionally toggling the hit's
object (1.0 when empty), each toggle pushing an absent index and removing a
present one. -/
theorem prepare_computations_n1_n2 (ops : FOps) (ray : Ray) (w : World)
    (pre post : List Intersection) (theHit : Intersection)
    (hpre : theHit ∉ pre) (hpost : theHit ∉ post) :
    (prepare_computations ops theHit ray w (pre ++ theHit :: post)).n1 =
      claim_n1 w pre ∧
    (prepare_computations ops theHit ray w (pre ++ theHit :: post)).n2 =
      claim_n2 w theHit pre := by
  have h1 : pre.foldl (n1n2Step w theHit) (1, 1, []) =
      (1, 1, containersAfter [] pre) :=
    n1n2_fold_skip w theHit pre (fun i hi he => hpre (he ▸ hi)) _
  have h3 : post.foldl (n1n2Step w theHit)
        (claim_n1 w pre, claim_n2 w theHit pre,
          toggleContainer (containersAfter [] pre) theHit.object_id) =
      (claim_n1 w pre, claim_n2 w theHit pre,
        containersAfter (toggleContainer (containersAfter [] pre) theHit.object_id) post) :=
    n1n2_fold_skip w theHit post (fun i hi he => hpost (he ▸ hi)) _
  have hfold : (pre ++ theHit :: post).foldl (n1n2Step w theHit) (1, 1, []) =
      (claim_n1 w pre, claim_n2 w theHit pre,
        containersAfter (toggleContainer (containersAfter [] pre) theHit.object_id) post) := by
    rw [List.foldl_append, h1, List.foldl_cons, n1n2_step_at_hit]
    exact h3
  constructor <;> simp [prepare_computations, hfold]

/-- Witness for C2 at the three-glass-spheres scenario: at the third sorted
intersection (object 2, inside A then B) the stack yields `n1` = B's index
and `n2` = C's index. -/
theorem prepare_computations_n1_n2_witness :
    ((⟨4, 2⟩ : Intersection) ∉ ([⟨2, 0⟩, ⟨3, 1⟩] : List Intersection)) ∧
    ((⟨4, 2⟩ : Intersection) ∉
      ([⟨5, 1⟩, ⟨6, 2⟩, ⟨7, 0⟩] : List Intersection)) ∧
    (prepare_computations opsZero ⟨4, 2⟩ ⟨⟨0, 0, -4⟩, ⟨0, 0, 0⟩⟩ glassExampleWorld
      ([⟨2, 0⟩, ⟨3, 1⟩] ++ ⟨4, 2⟩ :: [⟨5, 1⟩, ⟨6, 2⟩, ⟨7, 0⟩])).n1 = 20 ∧
    (prepare_computations opsZero ⟨4, 2⟩ ⟨⟨0, 0, -4⟩, ⟨0, 0, 0⟩⟩ glassExampleWorld
      ([⟨2, 0⟩, ⟨3, 1⟩] ++ ⟨4, 2⟩ :: [⟨5, 1⟩, ⟨6, 2⟩, ⟨7, 0⟩])).n2 = 25 := by
  have hpre : (⟨4, 2⟩ : Intersection) ∉ ([⟨2, 0⟩, ⟨3, 1⟩] : List Intersection) := by
    decide
  have hpost : (⟨4, 2⟩ : Intersection) ∉
      ([⟨5, 1⟩, ⟨6, 2⟩, ⟨7, 0⟩] : List Intersection) := by decide
  have h := prepare_computations_n1_n2 opsZero ⟨⟨0, 0, -4⟩, ⟨0, 0, 0⟩⟩ glassExampleWorld
    [⟨2, 0⟩, ⟨3, 1⟩] [⟨5, 1⟩, ⟨6, 2⟩, ⟨7, 0⟩] ⟨4, 2⟩ hpre hpost
  refine ⟨hpre, hpost, ?_, ?_⟩
  · rw [h.1]
    decide
  · rw [h.2]
    decide

/-- C3: `shade_hit` blends via Schlick exactly when the hit material is both
reflective and transparent (`surface + reflected·reflectance +
refracted·(1 − reflectance)`), and otherwise returns
`surface + reflected + refracted`. -/
theorem shade_hit_blend (ops : FOps) (w : World) (comps : Computations)
    (remaining : ℕ) :
    shade_hit ops w comps remaining =
      if (w.objectAt comps.object_id).material.reflective > 0 ∧
          (w.objectAt comps.object_id).material.transparency > 0 then
        surface_color ops w comps +
          reflected_color ops w comps remaining * schlick ops comps +
          refracted_color ops w comps remaining * (1 - schlick ops comps)
      else
        surface_color ops w comps + reflected_color ops w comps remaining +
          refracted_color ops w comps remaining := by
  rw [shade_hit]
  rfl

/-- C5: `is_shadowed` is true for a light-less world; with a light it is true
exactly when the shadow ray toward the light has a nearest positive hit
strictly closer than the light. -/
theorem is_shadowed_spec (ops : FOps) (w : World) (point : Point) :
    (w.light = none → is_shadowed ops w point = true) ∧
    (∀ light, w.light = some light →
      (is_shadowed ops w point = true ↔
        ∃ i, hit (intersect_world ops w
            ⟨point, (light.position - point).normalize ops⟩) = some i ∧
          i.t < (light.position - point).magnitude ops)) := by
  constructor
  · intro h
    simp [is_shadowed, h]
  · intro light h
    simp only [is_shadowed, h]
    cases hh : hit (intersect_world ops w
        ⟨point, (light.position - point).normalize ops⟩) with
    | none => simp [hh]
    | some i => simp [hh]

/-- Witness for C5: a world with no light is shadowed everywhere; in the
one-plane scene with the light 10 below, the point `(0, 1, 0)` is shadowed by
the plane (hit at `t = 1 < 10`, with the constant-10 square-root oracle). -/
theorem is_shadowed_spec_witness :
    is_shadowed opsZero ⟨[], none⟩ ⟨0, 0, 0⟩ = true ∧
    is_shadowed opsTen shadowExampleWorld ⟨0, 1, 0⟩ = true := by
  constructor
  · exact (is_shadowed_spec opsZero ⟨[], none⟩ ⟨0, 0, 0⟩).1 rfl
  · have hiff := (is_shadowed_spec opsTen shadowExampleWorld ⟨0, 1, 0⟩).2
      ⟨⟨0, -9, 0⟩, ⟨1, 1, 1⟩⟩ rfl
    have hnorm : ((⟨0, -9, 0⟩ : Point) - (⟨0, 1, 0⟩ : Point)).normalize opsTen =
        (⟨0, -1, 0⟩ : Vector) := by
      show Vector.normalize opsTen ⟨0 - 0, -9 - 1, 0 - 0⟩ = ⟨0, -1, 0⟩
      simp [Vector.normalize, Vector.magnitude, opsTen]
      norm_num
    have hworld : intersect_world opsTen shadowExampleWorld ⟨⟨0, 1, 0⟩, ⟨0, -1, 0⟩⟩ =
        [⟨1, 0⟩] := by
      have hguard : ¬|(⟨0, -1, 0⟩ : Vector).y| < EPSILON := by
        show ¬|(-1 : ℚ)| < EPSILON
        rw [abs_neg, abs_one]
        norm_num [EPSILON]
      simp [intersect_world, shadowExampleWorld, Shape.intersect,
        Shape.get_inverse_transform, Shape.plane, TransformData.default,
        Plane.local_intersect, hguard, Intersections.new, sortByT]
      norm_num [EPSILON]
    refine hiff.mpr ⟨⟨1, 0⟩, ?_, ?_⟩
    · rw [hnorm, hworld]
      decide
    · show (1 : ℚ) < Vector.magnitude opsTen _
      show (1 : ℚ) < 10
      norm_num

/-- `Mat4.identity` is a left identity for point transformation. -/
theorem Mat4.mulPoint_identity (p : Point) : Mat4.identity.mulPoint p = p := by
  cases p
  simp [Mat4.identity, Mat4.mulPoint, Fin.ext_iff]
  decide

/-- `Mat4.identity` is a left identity for vector transformation. -/
theorem Mat4.mulVector_identity (v : Vector) : Mat4.identity.mulVector v = v := by
  cases v
  simp [Mat4.identity, Mat4.mulVector, Fin.ext_iff]

/-- `Ray::transform` by the identity matrix returns the ray unchanged. -/
theorem Ray.transform_identity (r : Ray) : r.transform Mat4.identity = r := by
  cases r
  simp [Ray.transform, Mat4.mulPoint_identity, Mat4.mulVector_identity]

/-- C7: a shape whose cached inverse transform is absent behaves under
`intersect` and `normal_at` exactly like the same shape with the identity
matrix cached as inverse — the ray is used unchanged and the identity is
substituted; no failure occurs (both functions are total). -/
theorem singular_transform_identity_fallback (ops : FOps) (s : Shape)
    (ray : Ray) (p : Point) (object_id : ℕ)
    (h : s.get_inverse_transform = none) :
    Shape.intersect ops s ray object_id =
      Shape.intersect ops
        ⟨s.kind, ⟨s.transformData.transform, some Mat4.identity⟩, s.material⟩
        ray object_id ∧
    Shape.normal_at ops s p =
      Shape.normal_at ops
        ⟨s.kind, ⟨s.transformData.transform, some Mat4.identity⟩, s.material⟩ p := by
  have h' : s.transformData.inverse_transform = none := h
  constructor
  · simp only [Shape.intersect, Shape.get_inverse_transform, h',
      Ray.transform_identity]
  · simp only [Shape.normal_at, Shape.get_inverse_transform, h']

/-- Witness for C7: `Shape.sphere` carries no cached inverse (its transform
data is the default), and both fallbacks hold at a concrete ray and point. -/
theorem singular_transform_identity_fallback_witness :
    Shape.sphere.get_inverse_transform = none ∧
    Shape.intersect opsZero Shape.sphere ⟨⟨0, 0, -5⟩, ⟨0, 0, 1⟩⟩ 0 =
      Shape.intersect opsZero
        ⟨Shape.sphere.kind, ⟨Shape.sphere.transformData.transform, some Mat4.identity⟩,
          Shape.sphere.material⟩ ⟨⟨0, 0, -5⟩, ⟨0, 0, 1⟩⟩ 0 ∧
    Shape.normal_at opsZero Shape.sphere ⟨0, 0, -1⟩ =
      Shape.normal_at opsZero
        ⟨Shape.sphere.kind, ⟨Shape.sphere.transformData.transform, some Mat4.identity⟩,
          Shape.sphere.material⟩ ⟨0, 0, -1⟩ := by
  have h := singular_transform_identity_fallback opsZero Shape.sphere
    ⟨⟨0, 0, -5⟩, ⟨0, 0, 1⟩⟩ ⟨0, 0, -1⟩ 0 rfl
  exact ⟨rfl, h.1, h.2⟩

end RustTracer
